import Mathlib

/-!
Verification of the AutoStash daemon: a shallow embedding of the event
handler (`event_handle/src/lib.rs`), the TUI helpers
(`tui/src/util/mod.rs`, `tui/src/tui_main/app.rs`) and the fatal-error
dispatch of `auto_stash/src/main.rs`, together with a model of the
`store` and `diff` crates taken from the specification (those two crates
are not part of the source tree under verification).
-/

set_option maxRecDepth 4096

namespace AutoStash

/-- The atomic change record of the `diff` crate.  Field names follow the
source (`line_number`, `line` = previous text, `changed_line` = new text);
`date_time` is the observation timestamp, modelled as a natural number of
seconds. -/
structure LineDifference where
  path : String
  line_number : Nat
  line : String
  changed_line : String
  date_time : Nat
deriving DecidableEq, Repr

/-- Modelled from the spec: the three time-frame windows exposed by the
store. -/
inductive TimeFrame where
  | lastHour
  | lastDay
  | lastWeek
deriving DecidableEq, Repr

/-- Modelled from the spec: `LastHour = now − 1h`, `LastDay = now − 24h`,
`LastWeek = now − 7d` (truncated subtraction on naturals). -/
def TimeFrame.cutoff : TimeFrame → Nat → Nat
  | .lastHour, now => now - 3600
  | .lastDay, now => now - 86400
  | .lastWeek, now => now - 604800

/-- Modelled from the spec: one store entry is the change log of a path
together with its undo cursor. -/
structure StoreEntry where
  log : List LineDifference
  cursor : Nat
deriving DecidableEq, Repr

/-- Modelled from the spec: the store (the `store` crate is not part of
the source tree) maps registered paths to their entries, holds the active
time frame, and observes a current wall-clock time `now`. -/
structure Store where
  entries : List (String × StoreEntry)
  time_frame : TimeFrame
  now : Nat
deriving DecidableEq, Repr

/-- First entry registered under a path, if any. -/
def lookupEntry (s : Store) (p : String) : Option StoreEntry :=
  (s.entries.find? (fun q => q.1 == p)).map Prod.snd

/-- Rewrites the entry registered under `p` (all occurrences), leaving
every other path and the store metadata untouched. -/
def updateEntry (s : Store) (p : String) (f : StoreEntry → StoreEntry) : Store :=
  { s with entries := s.entries.map (fun q => if q.1 == p then (q.1, f q.2) else q) }

/-- Modelled from the spec: `ensure_entry` — idempotent registration of a
path (the handler calls it `create_new_file_entry`). -/
def create_new_file_entry (s : Store) (p : String) : Store :=
  match lookupEntry s p with
  | some _ => s
  | none => { s with entries := s.entries ++ [(p, ⟨[], 0⟩)] }

/-- Whether a record's timestamp falls inside the active time frame. -/
def inWindow (s : Store) (c : LineDifference) : Bool :=
  decide (TimeFrame.cutoff s.time_frame s.now ≤ c.date_time)

/-- Modelled from the spec: `applied_changes` — the prefix `[0, cursor)`
of the log for `p`, filtered by the current time frame (the handler calls
it `get_file_changes`). -/
def get_file_changes (s : Store) (p : String) : List LineDifference :=
  match lookupEntry s p with
  | some e => (e.log.take e.cursor).filter (inWindow s)
  | none => []

/-- Modelled from the spec: `append` — truncates any undone suffix,
appends the changes, and advances the cursor by their number (the handler
calls it `store_changes`).  An unregistered path is registered on append. -/
def store_changes (s : Store) (p : String) (cs : List LineDifference) : Store :=
  match lookupEntry s p with
  | some _ => updateEntry s p (fun e => ⟨e.log.take e.cursor ++ cs, e.cursor + cs.length⟩)
  | none => { s with entries := s.entries ++ [(p, ⟨cs, cs.length⟩)] }

/-- Modelled from the spec: `undo_by` decreases the cursor by
`min n cursor` (natural subtraction). -/
def undo_by (s : Store) (p : String) (n : Nat) : Store :=
  updateEntry s p (fun e => ⟨e.log, e.cursor - n⟩)

/-- Modelled from the spec: `redo_by` increases the cursor by
`min n (len − cursor)`. -/
def redo_by (s : Store) (p : String) (n : Nat) : Store :=
  updateEntry s p (fun e => ⟨e.log, e.cursor + min n (e.log.length - e.cursor)⟩)

/-- Modelled from the spec: `set_time_frame` swaps the active filter. -/
def change_time_frame (s : Store) (tf : TimeFrame) : Store :=
  { s with time_frame := tf }

/-- Modelled from the spec: applying one record to a line list — empty
`line` inserts (clamped to a trailing append), empty `changed_line`
deletes (no-op out of range), otherwise replaces in place (no-op out of
range).  Line numbers are 1-based. -/
def applyChange (lines : List String) (c : LineDifference) : List String :=
  let idx := c.line_number - 1
  if c.line = "" then
    lines.insertIdx (min idx lines.length) c.changed_line
  else if c.changed_line = "" then
    lines.eraseIdx idx
  else
    lines.set idx c.changed_line

/-- Modelled from the spec: materialisation replays records in log order
starting from the empty line list. -/
def materialise (cs : List LineDifference) : List String :=
  cs.foldl applyChange []

/-- Modelled from the spec: the `FileVersion` of one path — `none` when
the materialised content is empty or deleted. -/
def viewOfPath (s : Store) (p : String) : Option (List String) :=
  let ls := materialise (get_file_changes s p)
  if ls.isEmpty then none else some ls

/-- Modelled from the spec: `view()` produces one `FileVersion` per
registered path under the current cursor and time frame. -/
def Store.view (s : Store) : List (Option (List String)) :=
  s.entries.map (fun q => viewOfPath s q.1)

/-- The raw log stored under a path (empty when unregistered); used to
state what an operation appended. -/
def logOf (s : Store) (p : String) : List LineDifference :=
  ((lookupEntry s p).map StoreEntry.log).getD []

/-! ## The diff engine (`diff` crate), modelled from the spec -/

/-- Modelled from the spec: `diff(path, prior_changes)` reconstructs the
prior content from the applied records and compares it line by line with
the current file content — insertions carry an empty `line`, deletions an
empty `changed_line`, modifications both texts; records are emitted in
order of increasing line number and stamped with the current time. -/
def diffFind (p : String) (now : Nat) (prior : List LineDifference)
    (current : List String) : List LineDifference :=
  let old := materialise prior
  (List.range (max old.length current.length)).filterMap (fun i =>
    let b := old.get? i
    let a := current.get? i
    if b = a then none
    else some ⟨p, i + 1, b.getD "", a.getD "", now⟩)

/-! ## The debounced event source and the filesystem snapshot -/

/-- The `notify::DebouncedEvent` enum consumed by `EventHandle::handle`. -/
inductive DebouncedEvent where
  | noticeWrite (p : String)
  | noticeRemove (p : String)
  | create (p : String)
  | write (p : String)
  | chmod (p : String)
  | remove (p : String)
  | rename (from_path to_path : String)
  | rescan
  | error (msg : String) (p : Option String)
deriving DecidableEq, Repr

/-- What the filesystem holds at a path when the handler inspects it:
a regular file with its line content, a directory, or nothing. -/
inductive FsNode where
  | file (content : List String)
  | dir
  | missing
deriving DecidableEq, Repr

def FsNode.isFile : FsNode → Bool
  | .file _ => true
  | _ => false

def FsNode.content : FsNode → List String
  | .file c => c
  | _ => []

/-! ## The event handler (`event_handle/src/lib.rs`) -/

/-- Source `EventHandle::to_path`: `Write`, `Remove` and `NoticeWrite` resolve to
their path, `Error` propagates its message, everything else resolves to
`None`. -/
def toPath : DebouncedEvent → Except String (Option String)
  | .write p => .ok (some p)
  | .remove p => .ok (some p)
  | .noticeWrite p => .ok (some p)
  | .error e _ => .error e
  | _ => .ok none

/-- The path a filesystem event refers to.  The watcher specification
types events as `Written(path)`, `Removed(path)` or `Error(message)`, so
an error event carries no subject path; for a rename the source path is
taken. -/
def eventPath : DebouncedEvent → Option String
  | .noticeWrite p => some p
  | .noticeRemove p => some p
  | .create p => some p
  | .write p => some p
  | .chmod p => some p
  | .remove p => some p
  | .rename p _ => some p
  | .rescan => none
  | .error _ _ => none

/-- Source `EventHandle::is_modification`: true exactly on `Write`. -/
def isModification : DebouncedEvent → Bool
  | .write _ => true
  | _ => false

/-- Source `EventHandle::is_removed`: true exactly on `Remove`. -/
def isRemoved : DebouncedEvent → Bool
  | .remove _ => true
  | _ => false

/-- Outcome of one handled event: the store afterwards and the view
snapshots sent to the UI, in send order. -/
structure HandleResult where
  store : Store
  published : List (List (Option (List String)))
deriving DecidableEq, Repr

/-- The synthetic deletion `on_file_remove` builds from one stored change
record: same `line_number`, the record's `changed_line` as the previous
text, and an empty new text. -/
def syntheticDeletion (p : String) (now : Nat) (c : LineDifference) : LineDifference :=
  ⟨p, c.line_number, c.changed_line, "", now⟩

/-- Source `EventHandle::on_file_remove`: maps every applied change record of the
path to a synthetic deletion, stores them, and sends the refreshed view. -/
def on_file_remove (s : Store) (p : String) : HandleResult :=
  let changes := get_file_changes s p
  let syn := changes.map (syntheticDeletion p s.now)
  let s2 := store_changes s p syn
  ⟨s2, [s2.view]⟩

/-- Source `EventHandle::on_file_change`: registers the path, diffs the current
content against the reconstruction of the applied changes, stores the
delta unconditionally, and sends the refreshed view. -/
def on_file_change (s : Store) (p : String) (current : List String) : HandleResult :=
  let s1 := create_new_file_entry s p
  let changes := get_file_changes s1 p
  let delta := diffFind p s1.now changes current
  let s2 := store_changes s1 p delta
  ⟨s2, [s2.view]⟩

/-- Source `EventHandle::handle`: resolves the event to a path, bails out on
`None`, ignores paths that are not regular files, and otherwise runs the
modification branch (for `Write`) followed by the removal branch (for
`Remove`). -/
def handle (s : Store) (fs : String → FsNode) (ev : DebouncedEvent) :
    Except String HandleResult :=
  match toPath ev with
  | .error e => .error e
  | .ok none => .ok ⟨s, []⟩
  | .ok (some p) =>
    if (fs p).isFile then
      let r1 := if isModification ev then on_file_change s p (fs p).content else ⟨s, []⟩
      let r2 := if isRemoved ev then on_file_remove r1.store p else ⟨r1.store, []⟩
      .ok ⟨r2.store, r1.published ++ r2.published⟩
    else
      .ok ⟨s, []⟩

/-- Whether handling succeeded. -/
def handleOk (s : Store) (fs : String → FsNode) (ev : DebouncedEvent) : Bool :=
  match handle s fs ev with
  | .ok _ => true
  | .error _ => false

/-- The successful outcome of handling (the unchanged store when the
handler failed). -/
def handleResult (s : Store) (fs : String → FsNode) (ev : DebouncedEvent) : HandleResult :=
  match handle s fs ev with
  | .ok r => r
  | .error _ => ⟨s, []⟩

/-! ## TUI helpers (`tui/src/util/mod.rs`, `tui/src/tui_main/app.rs`) -/

/-- Source `TabsState`: the tab titles and the selected index. -/
structure TabsState where
  titles : List String
  index : Nat
deriving DecidableEq, Repr

/-- Source `TabsState::next`: `index = (index + 1) % titles.len()`. -/
def TabsState.next (t : TabsState) : TabsState :=
  { t with index := (t.index + 1) % t.titles.length }

/-- Source `TabsState::previous`: decrement, wrapping from `0` to
`titles.len() - 1`. -/
def TabsState.previous (t : TabsState) : TabsState :=
  if t.index > 0 then { t with index := t.index - 1 }
  else { t with index := t.titles.length - 1 }

/-- The fields of `App` the keyboard actions under scrutiny touch. -/
structure App where
  title : String
  should_quit : Bool
  tabs : TabsState
deriving DecidableEq, Repr

/-- Source `App::new`: three time-frame tabs, first one selected. -/
def App.new (title : String) : App :=
  ⟨title, false, ⟨["1h", "24h", "7 Tage"], 0⟩⟩

/-- Source `App::on_right` advances the tab. -/
def App.on_right (a : App) : App :=
  { a with tabs := a.tabs.next }

/-- Source `App::on_left` moves the tab back. -/
def App.on_left (a : App) : App :=
  { a with tabs := a.tabs.previous }

/-- Text colors used by `process_new_version`. -/
inductive SpanColor where
  | blue
  | red
  | green
deriving DecidableEq, Repr

/-- One `tui::text::Span`: its content and optional style color. -/
structure Span where
  content : String
  color : Option SpanColor
deriving DecidableEq, Repr

def Span.raw (s : String) : Span := ⟨s, none⟩

def Span.styled (s : String) (c : SpanColor) : Span := ⟨s, some c⟩

/-- Source `process_new_version`: renders each `LineDifference` as one `Spans`
row `\n <line_number> -> <line> -> <changed_line> \n`, the number in
blue, the previous text in red, the new text in green. -/
def process_new_version (diffs : List LineDifference) : List (List Span) :=
  diffs.map (fun d =>
    [Span.raw "\n",
     Span.styled (toString d.line_number) SpanColor.blue,
     Span.raw "->",
     Span.styled d.line SpanColor.red,
     Span.raw "->",
     Span.styled d.changed_line SpanColor.green,
     Span.raw "\n"])

/-- The styled contents of a rendered row, in order. -/
def styledContents (row : List Span) : List String :=
  (row.filter (fun sp => sp.color.isSome)).map Span.content

/-- Source `tui::widgets::ListState`: the current selection. -/
structure ListState where
  selected : Option Nat
deriving DecidableEq, Repr

/-- Source `StatefulList`: a selection state over an items vector. -/
structure StatefulList (α : Type) where
  state : ListState
  items : List α
deriving DecidableEq, Repr

/-- Source `StatefulList::next`, with Rust debug-build (overflow-checked)
semantics: `none` models the panic of the subtraction
`items.len() - 1` on an empty vector. -/
def StatefulList.next {α : Type} (l : StatefulList α) : Option (StatefulList α) :=
  match l.state.selected with
  | some i =>
    if l.items.length = 0 then none
    else if i ≥ l.items.length - 1 then some { l with state := ⟨some 0⟩ }
    else some { l with state := ⟨some (i + 1)⟩ }
  | none => some { l with state := ⟨some 0⟩ }

/-- Source `StatefulList::previous`, with Rust debug-build (overflow-checked)
semantics: `items.len() - 1` is only evaluated in the `i == 0` branch, so
only that branch can panic on an empty vector. -/
def StatefulList.previous {α : Type} (l : StatefulList α) : Option (StatefulList α) :=
  match l.state.selected with
  | some i =>
    if i = 0 then
      if l.items.length = 0 then none
      else some { l with state := ⟨some (l.items.length - 1)⟩ }
    else some { l with state := ⟨some (i - 1)⟩ }
  | none => some { l with state := ⟨some 0⟩ }

/-- Whether a selection is absent or a valid index into the items. -/
def selOk {α : Type} (l : StatefulList α) : Bool :=
  match l.state.selected with
  | none => true
  | some i => decide (i < l.items.length)

/-! ## CLI parsing (`Config::new` in `tui/src/tui_main/app.rs`) -/

/-- The parsed configuration. `debounce_time` is kept in milliseconds. -/
structure Config where
  store_path : String
  watch_path : String
  debounce_time : Nat
deriving DecidableEq, Repr

/-- The three missing-argument errors `Config::new` reports. -/
inductive ConfigError where
  | missingStorePath
  | missingWatchPath
  | missingDebounceTime
deriving DecidableEq, Repr

/-- How a call to `Config::new` can end: a configuration, an `Err`, or a
Rust panic. -/
inductive ConfigResult where
  | ok (c : Config)
  | err (e : ConfigError)
  | panicked
deriving DecidableEq, Repr

/-- Source `u64::from_str` on a decimal digit string: fails on empty input,
non-digits, and on values of 2^64 or more. -/
def parseU64 (s : String) : Option Nat :=
  let cs := s.data
  if cs ≠ [] ∧ cs.all (fun c => decide (48 ≤ c.toNat) && decide (c.toNat ≤ 57)) then
    let n := cs.foldl (fun acc c => acc * 10 + (c.toNat - 48)) 0
    if n < 2 ^ 64 then some n else none
  else none

/-- Source `Config::new`: skips the binary name, takes the three positional
arguments in order, reporting an `Err` when one is missing — but parses
the debounce time with `.parse::<u64>().unwrap()`, which panics on an
invalid integer instead of returning an `Err`. -/
def Config.new (args : List String) : ConfigResult :=
  let rest := args.drop 1
  match rest.head? with
  | none => .err .missingStorePath
  | some store_path =>
    match (rest.drop 1).head? with
    | none => .err .missingWatchPath
    | some watch_path =>
      match (rest.drop 2).head? with
      | none => .err .missingDebounceTime
      | some raw =>
        match parseU64 raw with
        | some n => .ok ⟨store_path, watch_path, n⟩
        | none => .panicked

/-! ## Fatal-error dispatch (`auto_stash/src/main.rs` and
`transmit_file_versions` in `event_handle/src/lib.rs`) -/

/-- The five fatal error sites of the program: the `ui::run` closure, the
`Config::new` handler, the `AutoStash::new` handler (store open), the
`auto_stash.run()` handler, and the failed view transmission inside
`transmit_file_versions`. -/
inductive FatalError where
  | uiRunError
  | argParseError
  | autoStashCreateError
  | autoStashRunError
  | uiTransmitError
deriving DecidableEq, Repr

/-- The exit code each fatal site passes to `process::exit`. -/
def exitCode : FatalError → Nat
  | .uiRunError => 1
  | .argParseError => 1
  | .autoStashCreateError => 1
  | .autoStashRunError => 1
  | .uiTransmitError => 1

/-! ## Interleaving model of the handler loops

Each handler loop (`on_undo`, `on_redo`, ...) processes one message as
three steps whose atomicity mirrors the lock scopes in the source: the
mutation is performed under one acquisition of the store mutex
(`store.lock().unwrap().undo_by(..)` — the guard is a temporary dropped
at the end of the statement), the view is computed under a second
acquisition inside `transmit_file_versions`
(`store.lock().unwrap().view()` — again a temporary), and the channel
send happens with no lock held.  Two loops run on distinct threads, so
their steps interleave freely at this granularity. -/

/-- A view snapshot as sent to the UI. -/
abbrev ViewT := List (Option (List String))

/-- Global state of two handler threads working one message each:
the shared store, each thread's locally read view, each thread's program
counter (0 = about to mutate, 1 = about to read the view, 2 = about to
send, 3 = done), the UI channel contents in send order, and the trace of
post-mutation view snapshots in mutation order. -/
structure ConcState where
  store : Store
  regA : ViewT
  regB : ViewT
  pcA : Nat
  pcB : Nat
  chan : List ViewT
  mutLog : List ViewT
deriving DecidableEq, Repr

/-- One step of thread `A` with mutation `mutA`: mutate under the mutex,
read the view under the mutex, send outside the mutex. -/
def stepA (mutA : Store → Store) (st : ConcState) : ConcState :=
  match st.pcA with
  | 0 =>
    let s2 := mutA st.store
    { st with store := s2, mutLog := st.mutLog ++ [s2.view], pcA := 1 }
  | 1 => { st with regA := st.store.view, pcA := 2 }
  | 2 => { st with chan := st.chan ++ [st.regA], pcA := 3 }
  | _ => st

/-- One step of thread `B` with mutation `mutB`. -/
def stepB (mutB : Store → Store) (st : ConcState) : ConcState :=
  match st.pcB with
  | 0 =>
    let s2 := mutB st.store
    { st with store := s2, mutLog := st.mutLog ++ [s2.view], pcB := 1 }
  | 1 => { st with regB := st.store.view, pcB := 2 }
  | 2 => { st with chan := st.chan ++ [st.regB], pcB := 3 }
  | _ => st

/-- Runs a schedule (`true` = thread `A` steps, `false` = thread `B`
steps) from an initial store. -/
def runSched (mutA mutB : Store → Store) (s0 : Store) (sched : List Bool) : ConcState :=
  sched.foldl (fun st b => if b then stepA mutA st else stepB mutB st)
    ⟨s0, [], [], 0, 0, [], []⟩

/-- Whether both threads finished their message. -/
def ConcState.complete (st : ConcState) : Bool :=
  decide (st.pcA = 3) && decide (st.pcB = 3)

/-- Concrete instance: a store with one file whose log holds a single
applied insertion of line 1 "a". -/
def concStore : Store :=
  ⟨[("f", ⟨[⟨"f", 1, "", "a", 100⟩], 1⟩)], TimeFrame.lastWeek, 100⟩

/-- Thread `A` processes `undo_requests("f", 1)`. -/
def concMutA : Store → Store := fun s => undo_by s "f" 1

/-- Thread `B` processes `redo_requests("f", 1)`. -/
def concMutB : Store → Store := fun s => redo_by s "f" 1

/-- The concrete two-message system: one undo and one redo, interleaved
by a schedule. -/
def concRun (sched : List Bool) : ConcState :=
  runSched concMutA concMutB concStore sched

/-- The six-step schedule encoded by the low bits of a number. -/
def schedOf (n : Nat) : List Bool :=
  [n.testBit 0, n.testBit 1, n.testBit 2, n.testBit 3, n.testBit 4, n.testBit 5]

/-! ## Concrete inputs for the removal and write scenarios -/

/-- A store in which file "f" has two applied records touching the SAME
line: an insertion of "a" at line 1 followed by a modification of line 1
to "b".  The reconstruction of "f" is the single line "b". -/
def removeStore : Store :=
  ⟨[("f", ⟨[⟨"f", 1, "", "a", 1000⟩, ⟨"f", 1, "a", "b", 1000⟩], 2⟩)],
    TimeFrame.lastWeek, 1000⟩

/-- A snapshot in which "f" still tests as a regular file when the
removal event is handled. -/
def removeFs : String → FsNode :=
  fun q => if q == "f" then FsNode.file [] else FsNode.missing

/-- The synthetic deletions the claim prescribes for a removal: one per
line surviving in the current reconstruction, carrying that line's
1-based number and its current text. -/
def perLineDeletions (s : Store) (p : String) : List LineDifference :=
  (materialise (get_file_changes s p)).enum.map
    (fun it => ⟨p, it.1 + 1, it.2, "", s.now⟩)

/-- A store in which file "g" holds one applied insertion of line 1 "a",
so that a write event with unchanged content "a" produces an empty
delta. -/
def writeStore : Store :=
  ⟨[("g", ⟨[⟨"g", 1, "", "a", 500⟩], 1⟩)], TimeFrame.lastWeek, 500⟩

/-- A snapshot in which "g" is a regular file whose content equals the
reconstruction, line "a". -/
def writeFs : String → FsNode :=
  fun q => if q == "g" then FsNode.file ["a"] else FsNode.missing

/-- What handling a removal actually guarantees for a registered path
that still tests as a regular file: the handler succeeds with
`on_file_remove`, the log is truncated at the cursor and extended by one
synthetic deletion per APPLIED CHANGE RECORD (not per surviving line),
exactly one view of the mutated store is published, and undoing by the
number of appended records restores the applied changes of every path
and the whole view. -/
def removeContract (s : Store) (fs : String → FsNode) (p : String)
    (e : StoreEntry) : Prop :=
  handle s fs (DebouncedEvent.remove p) = Except.ok (on_file_remove s p) ∧
  logOf (on_file_remove s p).store p =
    e.log.take e.cursor ++ (get_file_changes s p).map (syntheticDeletion p s.now) ∧
  (on_file_remove s p).published = [Store.view (on_file_remove s p).store] ∧
  (∀ q, get_file_changes
      (undo_by (on_file_remove s p).store p (get_file_changes s p).length) q
    = get_file_changes s q) ∧
  Store.view (undo_by (on_file_remove s p).store p (get_file_changes s p).length)
    = Store.view s

/-- What handling a write actually guarantees for a registered path: the
handler succeeds with `on_file_change`, exactly one view of the mutated
store is published (whether or not the delta is empty), the applied
changes are extended by exactly the delta, and for an EMPTY delta the
store mutation is limited to truncating the undone suffix of the log —
the applied changes of every path are unchanged, yet the view is
published all the same. -/
def writeContract (s : Store) (fs : String → FsNode) (p : String)
    (e : StoreEntry) (c : List String) : Prop :=
  handle s fs (DebouncedEvent.write p) = Except.ok (on_file_change s p c) ∧
  (on_file_change s p c).published = [Store.view (on_file_change s p c).store] ∧
  get_file_changes (on_file_change s p c).store p =
    get_file_changes s p ++ diffFind p s.now (get_file_changes s p) c ∧
  (diffFind p s.now (get_file_changes s p) c = [] →
    logOf (on_file_change s p c).store p = e.log.take e.cursor ∧
    ∀ q, get_file_changes (on_file_change s p c).store q = get_file_changes s q)

/-- A one-record store used to witness the removal contract. -/
def removeWitStore : Store :=
  ⟨[("w", ⟨[⟨"w", 1, "", "x", 10⟩], 1⟩)], TimeFrame.lastDay, 20⟩

/-- The entry registered under "w" in `removeWitStore`. -/
def removeWitEntry : StoreEntry := ⟨[⟨"w", 1, "", "x", 10⟩], 1⟩

/-- A snapshot in which "w" still tests as a regular file. -/
def removeWitFs : String → FsNode :=
  fun q => if q == "w" then FsNode.file [] else FsNode.missing

/-- The entry registered under "g" in `writeStore`. -/
def writeWitEntry : StoreEntry := ⟨[⟨"g", 1, "", "a", 500⟩], 1⟩

/-! # Theorems -/

/-! ## Store lemmas -/

/-- Rewriting the entries registered under `p` commutes with looking `p`
up: the first hit is rewritten. -/
theorem find_update_self (l : List (String × StoreEntry)) (p : String)
    (f : StoreEntry → StoreEntry) :
    (l.map (fun q => if q.1 == p then (q.1, f q.2) else q)).find?
        (fun q => q.1 == p)
      = (l.find? (fun q => q.1 == p)).map (fun q => (q.1, f q.2)) := by
  induction l with
  | nil => rfl
  | cons a l ih =>
    rw [List.map_cons]
    cases h : (a.1 == p) with
    | true =>
      rw [if_pos rfl,
        @List.find?_cons_of_pos _ (fun q => q.1 == p) (a.1, f a.2) _ h,
        @List.find?_cons_of_pos _ (fun q => q.1 == p) a _ h]
      rfl
    | false =>
      rw [if_neg (by simp),
        @List.find?_cons_of_neg _ (fun q => q.1 == p) a _ (by simp [h]),
        @List.find?_cons_of_neg _ (fun q => q.1 == p) a _ (by simp [h]), ih]

/-- Rewriting the entries registered under `p` does not disturb a lookup
of a different path. -/
theorem find_update_other (l : List (String × StoreEntry)) (p q : String)
    (f : StoreEntry → StoreEntry) (hqp : q ≠ p) :
    (l.map (fun r => if r.1 == p then (r.1, f r.2) else r)).find?
        (fun r => r.1 == q)
      = l.find? (fun r => r.1 == q) := by
  induction l with
  | nil => rfl
  | cons a l ih =>
    rw [List.map_cons]
    cases hp : (a.1 == p) with
    | true =>
      have hp' : a.1 = p := by simpa using hp
      have hq2 : (a.1 == q) = false := by
        rw [hp']
        exact beq_eq_false_iff_ne.mpr (fun hh => hqp hh.symm)
      rw [if_pos rfl,
        @List.find?_cons_of_neg _ (fun r => r.1 == q) (a.1, f a.2) _ (by simp [hq2]),
        @List.find?_cons_of_neg _ (fun r => r.1 == q) a _ (by simp [hq2]), ih]
    | false =>
      cases hk : (a.1 == q) with
      | true =>
        rw [if_neg (by simp),
          @List.find?_cons_of_pos _ (fun r => r.1 == q) a _ hk,
          @List.find?_cons_of_pos _ (fun r => r.1 == q) a _ hk]
      | false =>
        rw [if_neg (by simp),
          @List.find?_cons_of_neg _ (fun r => r.1 == q) a _ (by simp [hk]),
          @List.find?_cons_of_neg _ (fun r => r.1 == q) a _ (by simp [hk]), ih]

/-- Looking up with `lookupEntry` after `updateEntry` on the same path. -/
theorem lookup_update_self (s : Store) (p : String) (f : StoreEntry → StoreEntry) :
    lookupEntry (updateEntry s p f) p = (lookupEntry s p).map f := by
  simp only [lookupEntry, updateEntry]
  rw [find_update_self]
  cases s.entries.find? (fun q => q.1 == p) <;> rfl

/-- Looking up with `lookupEntry` after `updateEntry` on a different path. -/
theorem lookup_update_other (s : Store) (p q : String)
    (f : StoreEntry → StoreEntry) (hqp : q ≠ p) :
    lookupEntry (updateEntry s p f) q = lookupEntry s q := by
  simp only [lookupEntry, updateEntry]
  rw [find_update_other _ _ _ _ hqp]

/-- Updating with `updateEntry` preserves the sequence of registered paths. -/
theorem keys_update (s : Store) (p : String) (f : StoreEntry → StoreEntry) :
    (updateEntry s p f).entries.map Prod.fst = s.entries.map Prod.fst := by
  simp only [updateEntry, List.map_map]
  refine List.map_congr_left (fun a _ => ?_)
  by_cases h : a.1 = p <;> simp [h]

/-- Updating with `updateEntry` does not change the time frame or clock, so it keeps
the window predicate. -/
theorem inWindow_update (s : Store) (p : String) (f : StoreEntry → StoreEntry) :
    inWindow (updateEntry s p f) = inWindow s := rfl

/-- Two stores with the same registered paths and the same applied
changes everywhere produce the same view. -/
theorem view_congr (s' s : Store)
    (hkeys : s'.entries.map Prod.fst = s.entries.map Prod.fst)
    (happ : ∀ q, get_file_changes s' q = get_file_changes s q) :
    Store.view s' = Store.view s := by
  unfold Store.view
  have h1 : s'.entries.map (fun q => viewOfPath s' q.1)
      = (s'.entries.map Prod.fst).map (fun k => viewOfPath s' k) := by
    rw [List.map_map]; rfl
  have h2 : s.entries.map (fun q => viewOfPath s q.1)
      = (s.entries.map Prod.fst).map (fun k => viewOfPath s k) := by
    rw [List.map_map]; rfl
  rw [h1, h2, hkeys]
  refine List.map_congr_left (fun k _ => ?_)
  simp only [viewOfPath, happ k]

/-- Appending `cs` to a registered path with a clean cursor and records
inside the active window extends the applied changes by exactly `cs`. -/
theorem applied_after_append (s : Store) (p : String) (e : StoreEntry)
    (cs : List LineDifference) (hl : lookupEntry s p = some e)
    (hc : e.cursor ≤ e.log.length) (hw : ∀ c ∈ cs, inWindow s c = true) :
    get_file_changes (store_changes s p cs) p = get_file_changes s p ++ cs := by
  simp only [store_changes, hl, get_file_changes, lookup_update_self,
    Option.map_some', inWindow_update]
  have hlen : (e.log.take e.cursor).length = e.cursor := by
    rw [List.length_take]; omega
  have htake : (e.log.take e.cursor ++ cs).take (e.cursor + cs.length)
      = e.log.take e.cursor ++ cs := by
    have hfull : e.cursor + cs.length = (e.log.take e.cursor ++ cs).length := by
      rw [List.length_append, hlen]
    rw [hfull, List.take_length]
  rw [htake, List.filter_append, List.filter_eq_self.mpr hw]

/-- Appending to `p` does not change the applied changes of any other
path. -/
theorem applied_append_other (s : Store) (p q : String) (e : StoreEntry)
    (cs : List LineDifference) (hl : lookupEntry s p = some e) (hqp : q ≠ p) :
    get_file_changes (store_changes s p cs) q = get_file_changes s q := by
  simp only [store_changes, hl, get_file_changes,
    lookup_update_other _ _ _ _ hqp, inWindow_update]

/-- Appending `cs` to a registered path with a clean cursor and then
undoing by `cs.length` restores the applied changes of every path. -/
theorem applied_append_undo (s : Store) (p : String) (e : StoreEntry)
    (cs : List LineDifference) (hl : lookupEntry s p = some e)
    (hc : e.cursor ≤ e.log.length) :
    ∀ q, get_file_changes (undo_by (store_changes s p cs) p cs.length) q
      = get_file_changes s q := by
  intro q
  by_cases hqp : q = p
  · subst hqp
    simp only [store_changes, hl, undo_by, get_file_changes, lookup_update_self,
      Option.map_some', Nat.add_sub_cancel, inWindow_update]
    have hlen : (e.log.take e.cursor).length = e.cursor := by
      rw [List.length_take]; omega
    have htake := List.take_left (e.log.take e.cursor) cs
    rw [hlen] at htake
    rw [htake]
  · simp only [store_changes, hl, undo_by, get_file_changes,
      lookup_update_other _ _ _ _ hqp, inWindow_update]

/-- Appending and undoing as above also preserves the registered paths,
hence the whole view. -/
theorem view_append_undo (s : Store) (p : String) (e : StoreEntry)
    (cs : List LineDifference) (hl : lookupEntry s p = some e)
    (hc : e.cursor ≤ e.log.length) :
    Store.view (undo_by (store_changes s p cs) p cs.length) = Store.view s := by
  refine view_congr _ _ ?_ (applied_append_undo s p e cs hl hc)
  simp only [store_changes, hl, undo_by, keys_update]

/-- Every record the diff engine emits is stamped with the current
time. -/
theorem diffFind_date (p : String) (now : Nat) (prior : List LineDifference)
    (current : List String) :
    ∀ c ∈ diffFind p now prior current, c.date_time = now := by
  intro c hc
  simp only [diffFind, List.mem_filterMap] at hc
  obtain ⟨i, -, h⟩ := hc
  split at h
  · exact Option.noConfusion h
  · injection h with h2
    rw [← h2]

/-- The time-frame cutoff never lies in the future, so a record stamped
with the current time is always inside the window. -/
theorem cutoff_le_now (tf : TimeFrame) (now : Nat) :
    TimeFrame.cutoff tf now ≤ now := by
  cases tf <;> simp [TimeFrame.cutoff]

/-- Registration with `create_new_file_entry` is the identity on a registered path. -/
theorem create_registered (s : Store) (p : String) (e : StoreEntry)
    (hl : lookupEntry s p = some e) : create_new_file_entry s p = s := by
  simp only [create_new_file_entry, hl]

/-- Handling a removal whose path still tests as a regular file runs
exactly `on_file_remove`. -/
theorem handle_remove_eval (s : Store) (fs : String → FsNode) (p : String)
    (hf : (fs p).isFile = true) :
    handle s fs (DebouncedEvent.remove p) = Except.ok (on_file_remove s p) := by
  simp only [handle, toPath, isModification, isRemoved, hf, if_true, if_false,
    Bool.false_eq_true, ite_false, ite_true, List.nil_append]

/-- Handling a write to a regular file runs exactly
`on_file_change`. -/
theorem handle_write_eval (s : Store) (fs : String → FsNode) (p : String)
    (c : List String) (hf : fs p = FsNode.file c) :
    handle s fs (DebouncedEvent.write p) = Except.ok (on_file_change s p c) := by
  simp only [handle, toPath, isModification, isRemoved, hf, FsNode.isFile,
    FsNode.content, if_true, if_false, Bool.false_eq_true, ite_false, ite_true,
    List.append_nil]

/-! ## Claims C1 and C2 -/

/-- Claim C1 counterexample: in a store where file "f" carries two
applied records touching the same line, handling `Remove("f")` appends
TWO synthetic deletions — one per change record, each taking the record's
after-text — although only ONE line survives in the reconstruction; and
undoing by the number of per-surviving-line deletions the claim
prescribes (one) does not restore the prior view. -/
theorem C1_counterexample :
    handleOk removeStore removeFs (DebouncedEvent.remove "f") = true ∧
    (materialise (get_file_changes removeStore "f")).length = 1 ∧
    (logOf (handleResult removeStore removeFs (DebouncedEvent.remove "f")).store "f").length
      = 4 ∧
    logOf (handleResult removeStore removeFs (DebouncedEvent.remove "f")).store "f" ≠
      logOf removeStore "f" ++ perLineDeletions removeStore "f" ∧
    Store.view (undo_by
        (handleResult removeStore removeFs (DebouncedEvent.remove "f")).store
        "f" (perLineDeletions removeStore "f").length)
      ≠ Store.view removeStore := by
  decide

/-- Claim C1, amended: for a `Remove(p)` event whose path is registered
with a clean cursor and still tests as a regular file, the handler
appends one synthetic deletion per APPLIED CHANGE RECORD of `p` — each
carrying that record's `line_number` and its after-text as `before` —
and publishes exactly one view; `undo_by(p, k)` for `k` equal to the
number of appended synthetic deletions restores the applied changes of
every path and the exact prior view. -/
theorem C1_amended : ∀ (s : Store) (fs : String → FsNode) (p : String)
    (e : StoreEntry), lookupEntry s p = some e → e.cursor ≤ e.log.length →
    (fs p).isFile = true → removeContract s fs p e := by
  intro s fs p e hl hc hf
  have hsyn : ((get_file_changes s p).map (syntheticDeletion p s.now)).length
      = (get_file_changes s p).length := List.length_map _ _
  refine ⟨handle_remove_eval s fs p hf, ?_, rfl, ?_, ?_⟩
  · simp only [on_file_remove, logOf, store_changes, hl, lookup_update_self,
      Option.map_some', Option.getD_some]
  · intro q
    have h2 := applied_append_undo s p e
      ((get_file_changes s p).map (syntheticDeletion p s.now)) hl hc q
    rw [hsyn] at h2
    simpa only [on_file_remove] using h2
  · have h3 := view_append_undo s p e
      ((get_file_changes s p).map (syntheticDeletion p s.now)) hl hc
    rw [hsyn] at h3
    simpa only [on_file_remove] using h3

/-- Witness for `C1_amended` at a one-record store. -/
theorem C1_witness :
    lookupEntry removeWitStore "w" = some removeWitEntry ∧
    removeWitEntry.cursor ≤ removeWitEntry.log.length ∧
    (removeWitFs "w").isFile = true ∧
    removeContract removeWitStore removeWitFs "w" removeWitEntry := by
  have h1 : lookupEntry removeWitStore "w" = some removeWitEntry := by decide
  have h2 : removeWitEntry.cursor ≤ removeWitEntry.log.length := by decide
  have h3 : (removeWitFs "w").isFile = true := by decide
  exact ⟨h1, h2, h3, C1_amended removeWitStore removeWitFs "w" removeWitEntry h1 h2 h3⟩

/-- Claim C2 counterexample: a write whose content equals the current
reconstruction yields an EMPTY delta, yet the handler still publishes a
view (the claim demands no publish in that case). -/
theorem C2_counterexample :
    diffFind "g" writeStore.now
        (get_file_changes (create_new_file_entry writeStore "g") "g") ["a"] = [] ∧
    handleOk writeStore writeFs (DebouncedEvent.write "g") = true ∧
    (handleResult writeStore writeFs (DebouncedEvent.write "g")).published ≠ [] := by
  decide

/-- Claim C2, amended: for a `Write(p)` event on a registered regular
file with a clean cursor, the handler computes the delta against the
reconstruction and appends it, extending the applied changes by exactly
the delta — but it appends and PUBLISHES UNCONDITIONALLY: an empty delta
still truncates the undone suffix of the log and still publishes one
view. -/
theorem C2_amended : ∀ (s : Store) (fs : String → FsNode) (p : String)
    (e : StoreEntry) (c : List String), fs p = FsNode.file c →
    lookupEntry s p = some e → e.cursor ≤ e.log.length →
    writeContract s fs p e c := by
  intro s fs p e c hf hl hc
  have hcreate : create_new_file_entry s p = s := create_registered s p e hl
  have hwin : ∀ d ∈ diffFind p s.now (get_file_changes s p) c, inWindow s d = true := by
    intro d hd
    have hdt := diffFind_date p s.now (get_file_changes s p) c d hd
    simp only [inWindow, hdt, decide_eq_true_eq]
    exact cutoff_le_now s.time_frame s.now
  refine ⟨handle_write_eval s fs p c hf, rfl, ?_, ?_⟩
  · simp only [on_file_change, hcreate]
    exact applied_after_append s p e _ hl hc hwin
  · intro hdelta
    constructor
    · simp only [on_file_change, hcreate, hdelta, logOf, store_changes, hl,
        lookup_update_self, Option.map_some', Option.getD_some, List.append_nil]
    · intro q
      by_cases hqp : q = p
      · subst hqp
        have h4 := applied_after_append s q e [] hl hc
          (fun d hd => absurd hd (List.not_mem_nil d))
        simp only [List.append_nil] at h4
        simpa only [on_file_change, hcreate, hdelta] using h4
      · have h5 := applied_append_other s p q e [] hl hqp
        simpa only [on_file_change, hcreate, hdelta] using h5

/-- Witness for `C2_amended` at the empty-delta store. -/
theorem C2_witness :
    writeFs "g" = FsNode.file ["a"] ∧
    lookupEntry writeStore "g" = some writeWitEntry ∧
    writeWitEntry.cursor ≤ writeWitEntry.log.length ∧
    writeContract writeStore writeFs "g" writeWitEntry ["a"] := by
  have h1 : writeFs "g" = FsNode.file ["a"] := by decide
  have h2 : lookupEntry writeStore "g" = some writeWitEntry := by decide
  have h3 : writeWitEntry.cursor ≤ writeWitEntry.log.length := by decide
  exact ⟨h1, h2, h3, C2_amended writeStore writeFs "g" writeWitEntry ["a"] h1 h2 h3⟩

/-- Claim C3 counterexample: a completed interleaving of one undo and one
redo message in which the sequence of views sent to the UI differs from
the sequence of post-mutation snapshots in mutation order — the view read
by the undo thread is sent after the redo's mutation yet does not reflect
it, because the store mutex is released between the mutation, the view
computation, and the send. -/
theorem C3_counterexample :
    (concRun [true, true, false, false, false, true]).complete = true ∧
    (concRun [true, true, false, false, false, true]).chan ≠
      (concRun [true, true, false, false, false, true]).mutLog := by
  decide

/-- Claim C3, amended: for every interleaving of the undo and redo
handler loops, each message results in exactly one published view, and
every published view is one of the post-mutation snapshots (it is
computed under the mutex after the sending thread's own mutation); the
emission ORDER, however, is not the mutation order. -/
theorem C3_amended : ∀ n : Fin 64,
    (concRun (schedOf n.val)).complete = true →
    (concRun (schedOf n.val)).chan.length = 2 ∧
    ∀ v ∈ (concRun (schedOf n.val)).chan, v ∈ (concRun (schedOf n.val)).mutLog := by
  decide

/-- Witness for `C3_amended` at the schedule that runs thread A to
completion and then thread B. -/
theorem C3_witness :
    (concRun (schedOf 7)).complete = true ∧
    ((concRun (schedOf 7)).chan.length = 2 ∧
      ∀ v ∈ (concRun (schedOf 7)).chan, v ∈ (concRun (schedOf 7)).mutLog) :=
  ⟨by decide, C3_amended (7 : Fin 64) (by decide)⟩

/-- Claim C4: `Config::new` reports missing-argument errors as `Err`, but
an invalid debounce integer is parsed with `.parse::<u64>().unwrap()` and
therefore panics rather than returning an `Err`. -/
theorem C4_theorem :
    Config.new ["auto-stash", "store.db", "watched", "abc"] = ConfigResult.panicked ∧
    Config.new ["auto-stash", "store.db", "watched", "250"] =
      ConfigResult.ok ⟨"store.db", "watched", 250⟩ ∧
    Config.new ["auto-stash"] = ConfigResult.err ConfigError.missingStorePath ∧
    Config.new ["auto-stash", "store.db"] = ConfigResult.err ConfigError.missingWatchPath ∧
    Config.new ["auto-stash", "store.db", "watched"] =
      ConfigResult.err ConfigError.missingDebounceTime := by
  decide

/-- Claim C5 counterexample: the `ui::run` failure handler in `main`
calls `process::exit(1)`, not the exit code 2 the claim assigns to UI
errors. -/
theorem C5_counterexample :
    exitCode FatalError.uiRunError = 1 ∧ ¬ exitCode FatalError.uiRunError = 2 := by
  decide

/-- Claim C5, amended: every fatal error site of the program — argument
parsing, store open (auto-stash creation), the auto-stash run loop, the
UI run loop, and view transmission to the UI — exits with code 1; no
path exits with code 2. -/
theorem C5_amended : ∀ e : FatalError, exitCode e = 1 := by
  intro e
  cases e <;> rfl

/-- Claim C6: with the three time-frame tabs, three successive
applications of `App::on_right` return to the starting tab from any tab,
and `App::on_left` after `App::on_right` is the identity, including the
wrap-around at both ends. -/
theorem C6_theorem : ∀ a : App, a.tabs.titles = ["1h", "24h", "7 Tage"] →
    a.tabs.index < 3 →
    a.on_right.on_right.on_right = a ∧ a.on_right.on_left = a := by
  rintro ⟨t, q, titles, idx⟩ h1 h2
  simp only at h1 h2
  subst h1
  interval_cases idx <;>
    simp [App.on_right, App.on_left, TabsState.next, TabsState.previous]

/-- Witness for `C6_theorem` at the freshly constructed `App`. -/
theorem C6_witness :
    (App.new "Auto Stash").tabs.titles = ["1h", "24h", "7 Tage"] ∧
    (App.new "Auto Stash").tabs.index < 3 ∧
    ((App.new "Auto Stash").on_right.on_right.on_right = App.new "Auto Stash" ∧
      (App.new "Auto Stash").on_right.on_left = App.new "Auto Stash") :=
  ⟨rfl, by decide, C6_theorem (App.new "Auto Stash") rfl (by decide)⟩

/-- Claim C8: a `NoticeWrite(p)` event resolves to `Some(p)` in
`to_path`, yet `handle` leaves the store untouched and publishes nothing;
only `Write` events satisfy `is_modification` and only `Remove` events
satisfy `is_removed`. -/
theorem C8_theorem :
    (∀ p, toPath (DebouncedEvent.noticeWrite p) = Except.ok (some p)) ∧
    (∀ (s : Store) (fs : String → FsNode) (p : String),
      handle s fs (DebouncedEvent.noticeWrite p) = Except.ok ⟨s, []⟩) ∧
    (∀ ev, isModification ev = true ↔ ∃ p, ev = DebouncedEvent.write p) ∧
    (∀ ev, isRemoved ev = true ↔ ∃ p, ev = DebouncedEvent.remove p) := by
  refine ⟨fun p => rfl, fun s fs p => ?_, fun ev => ?_, fun ev => ?_⟩
  · cases h : (fs p).isFile <;>
      simp [handle, toPath, isModification, isRemoved, h]
  · cases ev <;> simp [isModification]
  · cases ev <;> simp [isRemoved]

/-- Claim C7: for every filesystem event that refers to a path which is
not a regular file, `handle` returns `Ok`, mutates nothing, and publishes
nothing. -/
theorem C7_theorem : ∀ (s : Store) (fs : String → FsNode) (ev : DebouncedEvent)
    (p : String), eventPath ev = some p → (fs p).isFile = false →
    handle s fs ev = Except.ok ⟨s, []⟩ := by
  intro s fs ev p hp hf
  cases ev <;> simp only [eventPath, Option.some.injEq, reduceCtorEq] at hp <;>
    subst hp <;>
    simp [handle, toPath, hf, isModification, isRemoved]

/-- Witness for `C7_theorem`: a write event on a directory. -/
theorem C7_witness :
    eventPath (DebouncedEvent.write "d") = some "d" ∧
    ((fun _ => FsNode.dir : String → FsNode) "d").isFile = false ∧
    handle ⟨[], TimeFrame.lastHour, 0⟩ (fun _ => FsNode.dir)
      (DebouncedEvent.write "d") = Except.ok ⟨⟨[], TimeFrame.lastHour, 0⟩, []⟩ :=
  ⟨rfl, rfl, C7_theorem _ _ _ "d" rfl rfl⟩

/-- Claim C9: `process_new_version` maps each input record to one output
row, in order, and the i-th row's styled contents are exactly the i-th
record's `line_number`, `line`, and `changed_line`, in that order. -/
theorem C9_theorem : ∀ ds : List LineDifference,
    (process_new_version ds).length = ds.length ∧
    ∀ i : Nat, ((process_new_version ds)[i]?).map styledContents =
      (ds[i]?).map (fun d => [toString d.line_number, d.line, d.changed_line]) := by
  intro ds
  refine ⟨by simp [process_new_version], fun i => ?_⟩
  simp only [process_new_version, List.getElem?_map, Option.map_map]
  cases ds[i]? <;>
    simp [styledContents, Span.styled, Span.raw, List.filter, Function.comp]

/-- Claim C10 counterexample: on an empty items vector with no selection,
`StatefulList::next` returns successfully but sets the selection to index
0, which is not strictly less than the length 0; a further call with that
selection panics on the debug-checked subtraction `items.len() - 1`. -/
theorem C10_counterexample :
    StatefulList.next (⟨⟨none⟩, []⟩ : StatefulList Nat) = some ⟨⟨some 0⟩, []⟩ ∧
    selOk (⟨⟨some 0⟩, []⟩ : StatefulList Nat) = false ∧
    StatefulList.next (⟨⟨some 0⟩, []⟩ : StatefulList Nat) = none := by
  decide

/-- Claim C10, amended: for every `StatefulList` with a NONEMPTY items
vector and a selection that is unset or in range, `next` and `previous`
return without panicking and leave the selection set to an index strictly
below `items.len()`.  (On an empty vector the first call sets the
out-of-range index 0 and a subsequent `next` underflows, as the
counterexample records.) -/
theorem C10_amended : ∀ (α : Type) (l : StatefulList α),
    l.items ≠ [] → selOk l = true →
    (∃ l2, StatefulList.next l = some l2 ∧ selOk l2 = true) ∧
    (∃ l2, StatefulList.previous l = some l2 ∧ selOk l2 = true) := by
  rintro α ⟨⟨sel⟩, items⟩ hne hsel
  have hlen : 0 < items.length := List.length_pos.mpr hne
  cases sel with
  | none =>
    refine ⟨⟨_, rfl, ?_⟩, ⟨_, rfl, ?_⟩⟩ <;> simp [selOk] <;> omega
  | some i =>
    simp only [selOk, decide_eq_true_eq] at hsel
    refine ⟨?_, ?_⟩
    · simp only [StatefulList.next]
      split_ifs with h0 h1
      · omega
      · exact ⟨_, rfl, by simp [selOk]; omega⟩
      · exact ⟨_, rfl, by simp [selOk]; omega⟩
    · simp only [StatefulList.previous]
      split_ifs with h0 h1
      · omega
      · exact ⟨_, rfl, by simp [selOk]; omega⟩
      · exact ⟨_, rfl, by simp [selOk]; omega⟩

/-- Witness for `C10_amended` at a one-element list with no selection. -/
theorem C10_witness :
    (⟨⟨none⟩, [5]⟩ : StatefulList Nat).items ≠ [] ∧
    selOk (⟨⟨none⟩, [5]⟩ : StatefulList Nat) = true ∧
    ((∃ l2, StatefulList.next (⟨⟨none⟩, [5]⟩ : StatefulList Nat) = some l2 ∧
        selOk l2 = true) ∧
      (∃ l2, StatefulList.previous (⟨⟨none⟩, [5]⟩ : StatefulList Nat) = some l2 ∧
        selOk l2 = true)) :=
  ⟨by decide, by decide, C10_amended Nat ⟨⟨none⟩, [5]⟩ (by decide) (by decide)⟩

end AutoStash
